import Mathlib

/-!
# Verification of the Universal-Scrap classification-and-extraction core

A shallow embedding of `src/universal_scraper.py` (class `UniversalScraper`):
the page classifier `_detect_page_type`, the per-archetype extraction
strategies (`_scrape_tables`, `_scrape_lists`, `_scrape_cards`,
`_scrape_article`, `_scrape_products`, `_scrape_generic`), the
selector-driven extractor `_scrape_with_selectors`, and the dispatching
logic of `scrape_url` / `_auto_detect_and_scrape`.

The document model follows BeautifulSoup semantics as the source uses them:

* `find_all` / `find` search all descendants of a node (not the node
  itself) in document (preorder) order; `recursive=False` restricts to
  direct children; a list of tag names matches any of them.
* a `class_=re.compile(...)` filter matches an element iff the regex
  searches successfully in one of the element's individual classes; the
  regexes used by the source are alternations of plain words (plus one
  `product.*name` sequence pattern), modelled by substring search.
* `get_text(strip=True)` concatenates the trimmed text segments of all
  text descendants; `get_text()` concatenates them untrimmed.
* Python truthiness: a `Tag` is truthy iff it has at least one child
  (bs4 defines `Tag.__len__` as the number of contents), a string is
  truthy iff non-empty, `None` is falsy, a dict is truthy iff non-empty;
  `x or y` yields `x` if `x` is truthy, else `y`.
* Python dict assignment keeps insertion order and overwrites in place.
-/

namespace UniversalScrap

/-! ## String utilities (Python `in`, `strip`, `lower`, slicing, `split`) -/

/-- Models `strLead n h`: the char list `n` is an initial segment of `h`. -/
def strLead : List Char → List Char → Bool
  | [], _ => true
  | _ :: _, [] => false
  | a :: as, b :: bs => a = b && strLead as bs

/-- Models `strHasL n h`: the char list `n` occurs contiguously inside `h`
(Python `n in h`, `re.search` of a literal word). -/
def strHasL (n : List Char) : List Char → Bool
  | [] => n.isEmpty
  | c :: t => strLead n (c :: t) || strHasL n t

/-- Models `strHas hay needle`: `needle` is a substring of `hay`. -/
def strHas (hay needle : String) : Bool := strHasL needle.data hay.data

/-- Remainder of `h` after the first occurrence of `n`, if any. -/
def dropAfterL (n : List Char) : List Char → Option (List Char)
  | [] => if n.isEmpty then some [] else none
  | c :: t => if strLead n (c :: t) then some ((c :: t).drop n.length) else dropAfterL n t

/-- Models `strSeq hay a b`: models `re.search` of the pattern `a.*b` on `hay`:
an occurrence of `a` followed (disjointly) by an occurrence of `b`. -/
def strSeq (hay a b : String) : Bool :=
  match dropAfterL a.data hay.data with
  | some rest => strHasL b.data rest
  | none => false

/-- Python `str.strip()`: trim whitespace at both ends. -/
def pyStrip (s : String) : String :=
  ⟨((s.data.dropWhile Char.isWhitespace).reverse.dropWhile Char.isWhitespace).reverse⟩

/-- Python `str.lower()` (the documents at stake are ASCII). -/
def pyLower (s : String) : String := ⟨s.data.map Char.toLower⟩

/-- Python slicing `s[:n]` (by characters). -/
def pyTake (s : String) (n : Nat) : String := ⟨s.data.take n⟩

/-- Count of maximal whitespace-free chunks; the flag says whether a
chunk is currently open. -/
def wordCountAux : List Char → Bool → Nat
  | [], _ => 0
  | c :: cs, inWord =>
      if c.isWhitespace then wordCountAux cs false
      else (if inWord then 0 else 1) + wordCountAux cs true

/-- Python `len(s.split())`: number of maximal whitespace-free chunks. -/
def pyWordCount (s : String) : Nat := wordCountAux s.data false

/-! ## DOM model -/

/-- A parsed DOM node: a text segment, or an element with a tag name, a
list of CSS classes (empty when the element has no class attribute), other
attributes, and children. -/
inductive Node where
  | text (s : String)
  | elem (tag : String) (classes : List String) (attrs : List (String × String)) (children : List Node)

mutual
/-- Decidable equality on nodes. -/
def nodeDecEq : (a b : Node) → Decidable (a = b)
  | .text s, .text t =>
      if h : s = t then .isTrue (by rw [h]) else .isFalse (by simp [h])
  | .text _, .elem _ _ _ _ => .isFalse (by simp)
  | .elem _ _ _ _, .text _ => .isFalse (by simp)
  | .elem t c a cs, .elem u d b ds =>
      if h1 : t = u then
        if h2 : c = d then
          if h3 : a = b then
            match nodeListDecEq cs ds with
            | .isTrue h4 => .isTrue (by rw [h1, h2, h3, h4])
            | .isFalse h4 => .isFalse (by simp [h4])
          else .isFalse (by simp [h3])
        else .isFalse (by simp [h2])
      else .isFalse (by simp [h1])

/-- Decidable equality on lists of nodes. -/
def nodeListDecEq : (as bs : List Node) → Decidable (as = bs)
  | [], [] => .isTrue rfl
  | [], _ :: _ => .isFalse (by simp)
  | _ :: _, [] => .isFalse (by simp)
  | x :: xs, y :: ys =>
      match nodeDecEq x y with
      | .isTrue h1 =>
          match nodeListDecEq xs ys with
          | .isTrue h2 => .isTrue (by rw [h1, h2])
          | .isFalse h2 => .isFalse (by simp [h2])
      | .isFalse h1 => .isFalse (by simp [h1])
end

instance : DecidableEq Node := nodeDecEq

/-- A parsed document: the top-level nodes of the soup. -/
abbrev Doc := List Node

mutual
/-- A node together with all its descendants, in preorder. -/
def subnodes : Node → List Node
  | .text s => [.text s]
  | .elem t c a cs => .elem t c a cs :: subnodesL cs

/-- Concatenated subtrees of a list of sibling nodes, in order. -/
def subnodesL : List Node → List Node
  | [] => []
  | n :: ns => subnodes n ++ subnodesL ns
end

mutual
/-- Models `get_text()`: concatenation of all text segments of a node. -/
def getText : Node → String
  | .text s => s
  | .elem _ _ _ cs => getTextL cs

/-- Models `get_text()` over a list of sibling nodes. -/
def getTextL : List Node → String
  | [] => ""
  | n :: ns => getText n ++ getTextL ns
end

mutual
/-- Models `get_text(strip=True)`: concatenation of the trimmed text segments. -/
def getTextStrip : Node → String
  | .text s => pyStrip s
  | .elem _ _ _ cs => getTextStripL cs

/-- Models `get_text(strip=True)` over a list of sibling nodes. -/
def getTextStripL : List Node → String
  | [] => ""
  | n :: ns => getTextStrip n ++ getTextStripL ns
end

/-- The descendants of a node (itself excluded), in document order:
the search space of `tag.find_all(...)` / `tag.find(...)`. -/
def descOf : Node → List Node
  | .text _ => []
  | .elem _ _ _ cs => subnodesL cs

/-- The tag name of an element node. -/
def tagOf : Node → Option String
  | .text _ => none
  | .elem t _ _ _ => some t

/-- The classes of a node (a text node has none). -/
def classesOf : Node → List String
  | .text _ => []
  | .elem _ c _ _ => c

/-- The direct children of a node. -/
def childrenOf : Node → List Node
  | .text _ => []
  | .elem _ _ _ cs => cs

/-- Models `tag.get(attr)`: attribute lookup. -/
def getAttr (n : Node) (k : String) : Option String :=
  match n with
  | .text _ => none
  | .elem _ _ a _ => a.lookup k

/-- Python truthiness of a bs4 node: a `Tag` is truthy iff its `contents`
list is non-empty (`Tag.__len__`); a `NavigableString` iff non-empty. -/
def truthy : Node → Bool
  | .text s => s ≠ ""
  | .elem _ _ _ cs => !cs.isEmpty

/-- Truthiness of a `find(...)` result (`None` is falsy). -/
def truthyN : Option Node → Bool
  | some n => truthy n
  | none => false

/-- Truthiness of a `tag.get(attr)` result (`None` and `""` are falsy). -/
def truthyS : Option String → Bool
  | some s => s ≠ ""
  | none => false

/-- Python `x or y` on two `find` results. -/
def pyOrN (a b : Option Node) : Option Node := if truthyN a then a else b

/-- Python `x or y` on two attribute values. -/
def pyOrS (a b : Option String) : Option String := if truthyS a then a else b

/-- Models `n.isElem`: the node is a `Tag`, not a string. -/
def isElem : Node → Bool
  | .elem .. => true
  | .text _ => false

/-- Models `find_all(t)`-style tag test. -/
def isTag (t : String) (n : Node) : Bool := tagOf n = some t

/-- Models `find_all([t1, t2, ...])`-style tag test. -/
def isTagIn (ts : List String) (n : Node) : Bool :=
  match tagOf n with
  | some t => ts.contains t
  | none => false

/-- Models `class_=pat` filter: some individual class of the element satisfies
the pattern (bs4 applies a regex filter to each class separately). -/
def hasClassP (pat : String → Bool) (n : Node) : Bool := (classesOf n).any pat

/-- A class pattern that is an alternation of plain words
(`re.compile r'w1|w2|...'`): substring search for one of the words. -/
def altPat (ws : List String) : String → Bool := fun c => ws.any (fun w => strHas c w)

/-- Models `soup.find_all(<filter>)`: all matching nodes of the document. -/
def findAllP (doc : Doc) (p : Node → Bool) : List Node := (subnodesL doc).filter p

/-- Models `soup.find(<filter>)`: first matching node of the document. -/
def docFindP (doc : Doc) (p : Node → Bool) : Option Node := (findAllP doc p).head?

/-- Models `tag.find_all(<filter>)`: all matching descendants of `n`. -/
def eFindAllP (n : Node) (p : Node → Bool) : List Node := (descOf n).filter p

/-- Models `tag.find(<filter>)`: first matching descendant of `n`. -/
def eFindP (n : Node) (p : Node → Bool) : Option Node := (eFindAllP n p).head?

/-! ## Page classifier: `UniversalScraper._detect_page_type` -/

/-- Models `soup.find_all('table')`. -/
def tablesOf (doc : Doc) : List Node := findAllP doc (isTag "table")

/-- Models `table.find_all('tr')`: all row descendants of a table. -/
def rowsOf (t : Node) : List Node := eFindAllP t (isTag "tr")

/-- Classifier check 1: some table has more than 2 rows. -/
def table_check (doc : Doc) : Bool := (tablesOf doc).any (fun t => 2 < (rowsOf t).length)

/-- Models `soup.get_text().lower()`. -/
def page_text_lower (doc : Doc) : String := pyLower (getTextL doc)

/-- The ecommerce indicator words of `_detect_page_type`. -/
def ecommerce_indicators : List String := ["product", "item", "price", "cart", "buy"]

/-- Classifier check 2a: the lower-cased page text contains an indicator. -/
def ecomm_text_check (doc : Doc) : Bool :=
  ecommerce_indicators.any (fun w => strHas (page_text_lower doc) w)

/-- Models `soup.find_all(class_=re.compile(r'product|item'))`. -/
def product_candidates (doc : Doc) : List Node :=
  findAllP doc (hasClassP (altPat ["product", "item"]))

/-- Classifier check 2b: more than 3 product/item class matches. -/
def ecomm_struct_check (doc : Doc) : Bool := 3 < (product_candidates doc).length

/-- Classifier check 3: one of the card/tile/grid-item class searches
yields more than 3 matches. -/
def cards_check (doc : Doc) : Bool :=
  ["card", "tile", "grid-item"].any
    (fun w => 3 < (findAllP doc (hasClassP (fun c => strHas c w))).length)

/-- Models `soup.find_all(['ul', 'ol'])`. -/
def listsOf (doc : Doc) : List Node := findAllP doc (isTagIn ["ul", "ol"])

/-- Models `lst.find_all('li')`: ALL `<li>` descendants of a list (the source
does not pass `recursive=False` here, so nested items count). -/
def liDescendants (lst : Node) : List Node := eFindAllP lst (isTag "li")

/-- Classifier check 4: some `<ul>`/`<ol>` has more than 5 `<li>`
descendants. -/
def list_check (doc : Doc) : Bool := (listsOf doc).any (fun l => 5 < (liDescendants l).length)

/-- Classifier check 5: `soup.find('article')` is truthy, or some
find by an article-indicator class is truthy. -/
def article_check (doc : Doc) : Bool :=
  truthyN (docFindP doc (isTag "article")) ||
    ["article", "post", "blog", "content"].any
      (fun w => truthyN (docFindP doc (hasClassP (fun c => strHas c w))))

/-- Models `UniversalScraper._detect_page_type(soup, url)`: the page classifier
(a pure function of the document; the `url` argument is unused). -/
def detect_page_type (doc : Doc) : String :=
  if table_check doc then "table"
  else if ecomm_text_check doc && ecomm_struct_check doc then "ecommerce"
  else if cards_check doc then "cards"
  else if list_check doc then "list"
  else if article_check doc then "article"
  else "generic"

/-- An ordered rule table: predicate/label pairs, evaluated top-to-bottom,
first true predicate wins, `"generic"` is the terminal fallback. -/
def firstLabel : List ((Doc → Bool) × String) → Doc → String
  | [], _ => "generic"
  | (c, l) :: rest, doc => if c doc then l else firstLabel rest doc

/-- The classifier's rule table, in source order. -/
def classifierRules : List ((Doc → Bool) × String) :=
  [(table_check, "table"),
   (fun doc => ecomm_text_check doc && ecomm_struct_check doc, "ecommerce"),
   (cards_check, "cards"),
   (list_check, "list"),
   (article_check, "article")]

/-! ## Records -/

/-- A value stored in a record: the source stores strings, the synthetic
integer indices, `None` (from `img.get('src') or img.get('data-src')`),
the article's list of image URLs, and the generic strategy's list of
url/text pairs. -/
inductive Value where
  | str (s : String)
  | int (n : Nat)
  | null
  | strList (l : List String)
  | linkList (l : List (String × String))
deriving DecidableEq, Repr

/-- Is the value a string? -/
def Value.isStr : Value → Bool
  | .str _ => true
  | _ => false

/-- Is the value an integer? -/
def Value.isInt : Value → Bool
  | .int _ => true
  | _ => false

/-- Python truthiness of a stored value (`prod_data.get('name')`). -/
def truthyV : Option Value → Bool
  | some (.str s) => s ≠ ""
  | some (.int n) => n ≠ 0
  | some .null => false
  | some (.strList l) => !l.isEmpty
  | some (.linkList l) => !l.isEmpty
  | none => false

/-- A record: a Python dict in insertion order. -/
abbrev Record := List (String × Value)

/-- Python dict assignment `r[k] = v`: overwrite in place if the key
exists, else append. -/
def dictInsert (r : Record) (k : String) (v : Value) : Record :=
  if r.any (fun p => p.1 = k) then r.map (fun p => if p.1 = k then (k, v) else p)
  else r ++ [(k, v)]

/-- An attribute value as stored in a record (`None` when absent). -/
def valOfOpt : Option String → Value
  | some s => .str s
  | none => .null

/-- A guarded dict assignment, the shape `if cond: r[k] = v` that every
strategy uses. -/
def insertIf (c : Bool) (r : Record) (k : String) (v : Value) : Record :=
  if c then dictInsert r k v else r

/-- Models `find` result text, used only under a truthiness guard. -/
def textOfFound (o : Option Node) : String := getTextStrip (o.getD (.text ""))

/-- Models `x.get('href')` of a `find` result, used only under a guard. -/
def hrefOfFound (o : Option Node) : String := (getAttr (o.getD (.text "")) "href").getD ""

/-- Models `if link and link.get('href')`: a truthy `<a>` with a truthy href. -/
def linkGuard (o : Option Node) : Bool :=
  truthyN o && truthyS (getAttr (o.getD (.text "")) "href")

/-! ## Table strategy: `UniversalScraper._scrape_tables` -/

/-- Models `row.find_all(['th', 'td'])` (= `row.find_all(['td', 'th'])`):
the cells of a row, in document order. -/
def cellsOf (row : Node) : List Node := eFindAllP row (isTagIn ["th", "td"])

/-- The headers of a table: the first row's trimmed cell texts, replaced
by synthesized `Column_i` names when empty or all-empty. -/
def headersOf (r0 : Node) : List String :=
  let hs := (cellsOf r0).map getTextStrip
  if hs.isEmpty || hs.all (· = "") then
    (List.range (cellsOf r0).length).map (fun i => "Column_" ++ toString (i + 1))
  else hs

/-- One step of the row loop: `row_data[headers[idx]] = cell text` when
`idx < len(headers)`. -/
def rowFoldStep (hs : List String) (acc : Record) (ic : Nat × Node) : Record :=
  if ic.1 < hs.length then dictInsert acc (hs.getD ic.1 "") (.str (getTextStrip ic.2))
  else acc

/-- One data row of a table: skipped when it has no cells, else a dict of
`header[idx] -> cell text` for `idx < len(headers)`, kept only when that
dict is non-empty, then tagged with `_table_index`. -/
def row_record (hs : List String) (ti : Nat) (row : Node) : Option Record :=
  let cells := cellsOf row
  if cells.length = 0 then none
  else
    let rd := cells.enum.foldl (rowFoldStep hs) ([] : Record)
    if rd.isEmpty then none else some (dictInsert rd "_table_index" (.int ti))

/-- The records of the table at index `ti`: tables with fewer than 2 rows
are skipped; otherwise each row after the first is extracted. -/
def table_records (ti : Nat) (t : Node) : List Record :=
  match rowsOf t with
  | [] => []
  | [_] => []
  | r0 :: rest => rest.filterMap (row_record (headersOf r0) ti)

/-- Models `UniversalScraper._scrape_tables(soup)`. -/
def scrape_tables (doc : Doc) : List Record :=
  (tablesOf doc).enum.flatMap (fun it => table_records it.1 it.2)

/-! ## List strategy: `UniversalScraper._scrape_lists` -/

/-- Models `lst.find_all('li', recursive=False)`: direct `<li>` children only. -/
def directLi (lst : Node) : List Node := (childrenOf lst).filter (isTag "li")

/-- One list item: `text`, `_list_index`, `_item_index`, plus `link` when
the item contains a truthy `<a>` with a truthy `href`. -/
def list_item_record (li ii : Nat) (item : Node) : Record :=
  let r : Record :=
    [("text", .str (getTextStrip item)), ("_list_index", .int li), ("_item_index", .int ii)]
  let link := eFindP item (isTag "a")
  insertIf (linkGuard link) r "link" (.str (hrefOfFound link))

/-- The records of the list at index `li`: lists with fewer than 3 direct
items are skipped (navigation noise), else one record per direct item. -/
def list_records (li : Nat) (lst : Node) : List Record :=
  let items := directLi lst
  if items.length < 3 then []
  else items.enum.map (fun ji => list_item_record li ji.1 ji.2)

/-- Models `UniversalScraper._scrape_lists(soup)`. -/
def scrape_lists (doc : Doc) : List Record :=
  (listsOf doc).enum.flatMap (fun il => list_records il.1 il.2)

/-! ## Cards strategy: `UniversalScraper._scrape_cards` -/

/-- The four card class patterns tried by `_scrape_cards`, in order. -/
def cardPatterns : List String := ["card", "tile", "grid-item", "box"]

/-- Models `soup.find_all('div', {'class': re.compile(w)})`: `<div>` elements
with a class matching the pattern. -/
def divClassAll (doc : Doc) (w : String) : List Node :=
  findAllP doc (fun n => isTag "div" n && hasClassP (fun c => strHas c w) n)

/-- One step of the candidate selection loop of `_scrape_cards`: a later
pattern's result replaces the current one only when strictly larger. -/
def pickStep (doc : Doc) (acc : List Node) (w : String) : List Node :=
  if acc.length < (divClassAll doc w).length then divClassAll doc w else acc

/-- The candidate selection loop of `_scrape_cards`, starting from `[]`. -/
def best_cards (doc : Doc) : List Node := cardPatterns.foldl (pickStep doc) []

/-- Models `img.get('src') or img.get('data-src')` of a `find` result, stored
as a record value (possibly `None`). -/
def imageValOfFound (o : Option Node) : Value :=
  valOfOpt (pyOrS (getAttr (o.getD (.text "")) "src") (getAttr (o.getD (.text "")) "data-src"))

/-- One card record. -/
def card_record (ci : Nat) (card : Node) : Record :=
  let title := pyOrN (eFindP card (isTagIn ["h1", "h2", "h3", "h4", "h5", "h6"]))
    (eFindP card (hasClassP (altPat ["title", "heading"])))
  let desc := eFindP card (hasClassP (altPat ["description", "excerpt", "summary"]))
  let link := eFindP card (isTag "a")
  let img := eFindP card (isTag "img")
  let r1 := insertIf (truthyN title) [("_card_index", .int ci)] "title" (.str (textOfFound title))
  let r2 := insertIf (truthyN desc) r1 "description" (.str (textOfFound desc))
  let r3 := insertIf (linkGuard link) r2 "link" (.str (hrefOfFound link))
  let r4 := insertIf (truthyN img) r3 "image" (imageValOfFound img)
  insertIf (!r4.any (fun p => p.1 = "title")) r4 "text" (.str (pyTake (getTextStrip card) 200))

/-- Models `UniversalScraper._scrape_cards(soup)`. -/
def scrape_cards (doc : Doc) : List Record :=
  (best_cards doc).enum.map (fun ic => card_record ic.1 ic.2)

/-! ## Article strategy: `UniversalScraper._scrape_article` -/

/-- The joined paragraph text of the article's content container. -/
def contentTextOfFound (o : Option Node) : String :=
  String.intercalate "\n\n" ((eFindAllP (o.getD (.text "")) (isTag "p")).map getTextStrip)

/-- Models `UniversalScraper._scrape_article(soup, url)`: the single article
record. -/
def scrape_article (doc : Doc) (url : String) : Record :=
  let title := pyOrN (pyOrN (docFindP doc (isTag "h1"))
      (docFindP doc (hasClassP (fun c => strHas c "title"))))
    (docFindP doc (isTag "title"))
  let author := docFindP doc (hasClassP (altPat ["author", "byline", "writer"]))
  let date := pyOrN (docFindP doc (isTagIn ["time", "date"]))
    (docFindP doc (hasClassP (altPat ["date", "published"])))
  let content := pyOrN (pyOrN (docFindP doc (isTag "article"))
      (docFindP doc (hasClassP (altPat ["content", "article", "post-body"]))))
    (docFindP doc (isTag "main"))
  let r1 := insertIf (truthyN title) [("url", .str url)] "title" (.str (textOfFound title))
  let r2 := insertIf (truthyN author) r1 "author" (.str (textOfFound author))
  let r3 := insertIf (truthyN date) r2 "date" (.str (textOfFound date))
  let r4 := insertIf (truthyN content) r3 "content" (.str (contentTextOfFound content))
  let r5 := insertIf (truthyN content) r4 "word_count" (.int (pyWordCount (contentTextOfFound content)))
  let imgs := (findAllP doc (isTag "img")).filterMap
    (fun im =>
      let v := pyOrS (getAttr im "src") (getAttr im "data-src")
      if truthyS v then v else none)
  dictInsert r5 "images" (.strList imgs)

/-! ## Products strategy: `UniversalScraper._scrape_products` -/

/-- One product record, from the candidate at index `pi`. -/
def product_record (pi : Nat) (p : Node) : Record :=
  let name := pyOrN (eFindP p (hasClassP (fun c => strSeq c "product" "name" || strHas c "title")))
    (eFindP p (isTagIn ["h2", "h3", "h4"]))
  let price := eFindP p (hasClassP (fun c => strHas c "price"))
  let rating := eFindP p (hasClassP (altPat ["rating", "stars"]))
  let link := eFindP p (isTag "a")
  let img := eFindP p (isTag "img")
  let r1 := insertIf (truthyN name) [("_product_index", .int pi)] "name" (.str (textOfFound name))
  let r2 := insertIf (truthyN price) r1 "price" (.str (textOfFound price))
  let r3 := insertIf (truthyN rating) r2 "rating" (.str (textOfFound rating))
  let r4 := insertIf (linkGuard link) r3 "link" (.str (hrefOfFound link))
  insertIf (truthyN img) r4 "image" (imageValOfFound img)

/-- Models `if prod_data.get('name') or prod_data.get('price')`: keep only
candidates that produced a truthy name or price. -/
def keep_product (r : Record) : Bool :=
  truthyV (r.lookup "name") || truthyV (r.lookup "price")

/-- One step of the product loop: build the candidate's record, append
it only when it has a truthy name or price. -/
def prodStep (acc : List Record) (ip : Nat × Node) : List Record :=
  if keep_product (product_record ip.1 ip.2) then acc ++ [product_record ip.1 ip.2] else acc

/-- Models `UniversalScraper._scrape_products(soup)`: enumerate all
product/item-class candidates and run the product loop. -/
def scrape_products (doc : Doc) : List Record :=
  (product_candidates doc).enum.foldl prodStep []

/-! ## Generic strategy: `UniversalScraper._scrape_generic` -/

/-- The heading tags scanned by `_scrape_generic`. -/
def hTags : List String := ["h1", "h2", "h3", "h4", "h5", "h6"]

/-- The record of one heading: `type`, `text`, and `content` from the
next sibling tag (`find_next_sibling()` skips strings) when truthy. -/
def heading_record (tag : String) (cs : List Node) (laterSibs : List Node) : Record :=
  let r : Record := [("type", .str tag), ("text", .str (getTextStripL cs))]
  let sib := (laterSibs.filter isElem).head?
  insertIf (truthyN sib) r "content" (.str (pyTake (textOfFound sib) 500))

mutual
/-- Heading records of a sibling list, in document (preorder) order. -/
def headingRecsL : List Node → List Record
  | [] => []
  | n :: rest => headingRecsN n rest ++ headingRecsL rest

/-- Heading records of a node's subtree; `laterSibs` are the following
siblings, the search space of `find_next_sibling()`. -/
def headingRecsN : Node → List Node → List Record
  | .text _, _ => []
  | .elem t _c _a cs, laterSibs =>
      (if hTags.contains t then [heading_record t cs laterSibs] else []) ++ headingRecsL cs
end

/-- The deduplicated link table of `_scrape_generic`: hyperlinks with an
`href` attribute whose href and trimmed text are truthy and whose text is
longer than 2 characters, keyed by href in first-seen order, last text
winning. -/
def unique_links (doc : Doc) : List (String × String) :=
  (findAllP doc (fun n => isTag "a" n && (getAttr n "href").isSome)).foldl
    (fun acc l =>
      let href := (getAttr l "href").getD ""
      let txt := getTextStrip l
      if href ≠ "" && txt ≠ "" && 2 < txt.length then
        if acc.any (fun p => p.1 = href) then
          acc.map (fun p => if p.1 = href then (href, txt) else p)
        else acc ++ [(href, txt)]
      else acc)
    []

/-- Models `UniversalScraper._scrape_generic(soup)`: heading records, then one
trailing links record when any qualifying link exists. -/
def scrape_generic (doc : Doc) : List Record :=
  headingRecsL doc ++
    (if (unique_links doc).isEmpty then []
     else [[("type", .str "links"), ("links", .linkList (unique_links doc))]])

/-! ## Selector-driven extractor and dispatcher -/

/-- The optional configuration of `scrape_url`: only the `selectors`
entry drives extraction (pagination is browser orchestration, outside
this core). -/
structure ExtractionConfig where
  selectors : Option (List (String × String))

/-- Modelled from the spec: the external CSS selector engine (the source
delegates `select`/`select_one` to BeautifulSoup's soupsieve, which §1 of
the spec treats as an assumed collaborator). Only plain tag selectors and
single-class selectors are modelled; any other string is a syntax error,
raised by the engine as an exception. -/
inductive Sel where
  | tagSel (t : String)
  | classSel (c : String)

/-- A character allowed in a modelled selector identifier. -/
def selIdentChar (ch : Char) : Bool := ch.isAlphanum || ch = '-' || ch = '_'

/-- Modelled from the spec: selector parsing of the external engine.
`none` is a syntax error. -/
def parseSelector (s : String) : Option Sel :=
  match s.data with
  | [] => none
  | '.' :: rest =>
      if !rest.isEmpty && rest.all selIdentChar then some (.classSel ⟨rest⟩) else none
  | c :: rest =>
      if (c :: rest).all selIdentChar then some (.tagSel s) else none

/-- Does a node match a parsed selector? -/
def selMatches (sel : Sel) (n : Node) : Bool :=
  match sel with
  | .tagSel t => isTag t n
  | .classSel c => (classesOf n).contains c

/-- Models `soup.select(s)`: all matches, or the engine's syntax error carrying
the offending selector string. -/
def docSelect (doc : Doc) (s : String) : Except String (List Node) :=
  match parseSelector s with
  | some sel => .ok ((subnodesL doc).filter (selMatches sel))
  | none => .error s

/-- Models `container.select_one(s)`: first matching descendant, or the engine's
syntax error. -/
def eSelectOne (n : Node) (s : String) : Except String (Option Node) :=
  match parseSelector s with
  | some sel => .ok ((descOf n).filter (selMatches sel)).head?
  | none => .error s

/-- One field of one container: skip the `container` key, else resolve
the field's selector and store the trimmed text of a truthy match; a
selector syntax error propagates. -/
def selFieldStep (c : Node) (it : Record) (fs : String × String) : Except String Record :=
  if fs.1 = "container" then .ok it
  else
    match eSelectOne c fs.2 with
    | .ok e => .ok (insertIf (truthyN e) it fs.1 (.str (textOfFound e)))
    | .error err => .error err

/-- The field loop of one container. -/
def selFields (c : Node) : List (String × String) → Record → Except String Record
  | [], it => .ok it
  | fs :: rest, it =>
      match selFieldStep c it fs with
      | .ok it2 => selFields c rest it2
      | .error err => .error err

/-- One container: resolve every field, then append the item unless its
dict stayed empty. -/
def selContainerStep (selectors : List (String × String)) (acc : List Record) (c : Node) :
    Except String (List Record) :=
  match selFields c selectors ([] : Record) with
  | .ok item => .ok (if item.isEmpty then acc else acc ++ [item])
  | .error err => .error err

/-- The container loop. -/
def selContainers (selectors : List (String × String)) :
    List Node → List Record → Except String (List Record)
  | [], acc => .ok acc
  | c :: cs, acc =>
      match selContainerStep selectors acc c with
      | .ok acc2 => selContainers selectors cs acc2
      | .error err => .error err

/-- Models `UniversalScraper._scrape_with_selectors(soup, selectors)`: select
the containers by the `container` selector (default `body`), then for
each container resolve every other field's selector, storing the trimmed
text of truthy matches; containers with an empty dict are dropped. A
selector syntax error propagates as an exception. -/
def scrape_with_selectors (doc : Doc) (selectors : List (String × String)) :
    Except String (List Record) :=
  match docSelect doc ((selectors.lookup "container").getD "body") with
  | .ok containers => selContainers selectors containers ([] : List Record)
  | .error err => .error err

/-- Models `UniversalScraper._auto_detect_and_scrape(soup, page, url)`: classify
and run the strategy matching the resulting page type. -/
def auto_detect_and_scrape (doc : Doc) (url : String) : List Record :=
  match detect_page_type doc with
  | "table" => scrape_tables doc
  | "list" => scrape_lists doc
  | "cards" => scrape_cards doc
  | "article" => [scrape_article doc url]
  | "ecommerce" => scrape_products doc
  | _ => scrape_generic doc

/-- The dispatch of `scrape_url`: when the config carries a `selectors`
mapping, use the selector-driven extractor; otherwise auto-detect. -/
def dispatch_extract (doc : Doc) (url : String) (config : Option ExtractionConfig) :
    Except String (List Record) :=
  match config with
  | some cfg =>
      match cfg.selectors with
      | some sels => scrape_with_selectors doc sels
      | none => .ok (auto_detect_and_scrape doc url)
  | none => .ok (auto_detect_and_scrape doc url)

/-- The result of one `scrape_url` call on an already-rendered document:
extracted data is appended to `self.data`; any exception is caught by the
blanket handler, which prints it and leaves `self.data` unchanged. -/
def scrape_url_core (doc : Doc) (url : String) (config : Option ExtractionConfig)
    (st : List Record) : List Record :=
  match dispatch_extract doc url config with
  | .ok d => st ++ d
  | .error _ => st

/-! ## Record field access (for stating provenance properties) -/

/-- First-match field lookup in a record. -/
def recGet (k : String) : Record → Option Value
  | [] => none
  | (k', v) :: r => if k' = k then some v else recGet k r

/-- The `_product_index` field of a record, as a number. -/
def prodIdx (r : Record) : Nat :=
  match recGet "_product_index" r with
  | some (.int n) => n
  | _ => 0

/-- The candidate set of the card pattern at position `k`. -/
def cardSet (doc : Doc) (k : Nat) : List Node := divClassAll doc (cardPatterns.getD k "")

/-! ## Spec-side formulations (from the spec's words, for comparison) -/

/-- Modelled from the spec (C3): the Record count the spec asserts for a
table — the number of data rows with at least one NON-EMPTY cell among
the first N columns, N the header length. -/
def specTableRowCount (t : Node) : Nat :=
  match rowsOf t with
  | [] => 0
  | r0 :: rest =>
      rest.countP
        (fun row => ((cellsOf row).take (headersOf r0).length).any (fun c => getTextStrip c ≠ ""))

/-- Modelled from the spec (C4): the List check the spec asserts — some
`<ul>`/`<ol>` with more than 5 DIRECT `<li>` children. -/
def specDirectListCheck (doc : Doc) : Bool :=
  (listsOf doc).any (fun l => 5 < (directLi l).length)

/-- The synthetic index field names of the data model. -/
def indexFields : List String :=
  ["_table_index", "_list_index", "_item_index", "_card_index", "_product_index"]

/-- Modelled from the spec (C8): the record shape the spec asserts —
non-empty field names, string values, integer synthetic index fields. -/
def specRecordOk (r : Record) : Bool :=
  r.all (fun kv => kv.1 ≠ "" && (kv.2.isStr || (indexFields.contains kv.1 && kv.2.isInt)))

/-- Record shape actually produced by the table strategy. -/
def tableValOk (kv : String × Value) : Bool :=
  if kv.1 = "_table_index" then kv.2.isInt else kv.2.isStr

/-- Record shape actually produced by the list strategy. -/
def listValOk (kv : String × Value) : Bool :=
  if kv.1 = "_list_index" || kv.1 = "_item_index" then kv.2.isInt else kv.2.isStr

/-- Record shape actually produced by the cards strategy. -/
def cardValOk (kv : String × Value) : Bool :=
  if kv.1 = "_card_index" then kv.2.isInt
  else if kv.1 = "image" then kv.2.isStr || kv.2 == .null
  else kv.2.isStr

/-- Record shape actually produced by the products strategy. -/
def productValOk (kv : String × Value) : Bool :=
  if kv.1 = "_product_index" then kv.2.isInt
  else if kv.1 = "image" then kv.2.isStr || kv.2 == .null
  else kv.2.isStr

/-- Record shape actually produced by the article strategy. -/
def articleValOk (kv : String × Value) : Bool :=
  if kv.1 = "word_count" then kv.2.isInt
  else if kv.1 = "images" then match kv.2 with | .strList _ => true | _ => false
  else kv.2.isStr

/-- Record shape actually produced by the generic strategy. -/
def genericValOk (kv : String × Value) : Bool :=
  if kv.1 = "links" then match kv.2 with | .linkList _ => true | _ => false
  else kv.2.isStr

/-! ## Concrete documents for witnesses and counterexamples -/

/-- An ambiguous page: a 3-row table, four `card`-class divs, and a
7-item list — every early classifier signal at once. -/
def exMixedDoc : Doc :=
  [.elem "table" [] [] [
      .elem "tr" [] [] [.elem "th" [] [] [.text "Name"], .elem "th" [] [] [.text "Score"]],
      .elem "tr" [] [] [.elem "td" [] [] [.text "Alice"], .elem "td" [] [] [.text "10"]],
      .elem "tr" [] [] [.elem "td" [] [] [.text "Bob"], .elem "td" [] [] [.text "7"]]],
   .elem "div" ["card"] [] [.text "a"], .elem "div" ["card"] [] [.text "b"],
   .elem "div" ["card"] [] [.text "c"], .elem "div" ["card"] [] [.text "d"],
   .elem "ul" [] [] [
      .elem "li" [] [] [.text "1"], .elem "li" [] [] [.text "2"],
      .elem "li" [] [] [.text "3"], .elem "li" [] [] [.text "4"],
      .elem "li" [] [] [.text "5"], .elem "li" [] [] [.text "6"],
      .elem "li" [] [] [.text "7"]]]

/-- A table whose single data row has one empty cell. -/
def cex3table : Node :=
  .elem "table" [] [] [
    .elem "tr" [] [] [.elem "th" [] [] [.text "Name"]],
    .elem "tr" [] [] [.elem "td" [] [] [.text ""]]]

/-- The document holding only `cex3table`. -/
def cex3doc : Doc := [cex3table]

/-- A 2-item list whose second item holds a nested 4-item sublist:
6 `<li>` descendants, but no list with more than 5 direct items. -/
def cex4doc : Doc :=
  [.elem "ul" [] [] [
      .elem "li" [] [] [.text "a"],
      .elem "li" [] [] [.text "b",
        .elem "ul" [] [] [
          .elem "li" [] [] [.text "c"], .elem "li" [] [] [.text "d"],
          .elem "li" [] [] [.text "e"], .elem "li" [] [] [.text "f"]]]]]

/-- A list with exactly 3 direct items. -/
def cex5ul : Node :=
  .elem "ul" [] [] [
    .elem "li" [] [] [.text "aa"], .elem "li" [] [] [.text "bb"],
    .elem "li" [] [] [.text "cc"]]

/-- The document holding only `cex5ul`. -/
def cex5doc : Doc := [cex5ul]

/-- A record emitted for the first item of `cex5doc`. -/
def w5rec : Record :=
  [("text", .str "aa"), ("_list_index", .int 0), ("_item_index", .int 0)]

/-- A document with one `div` container holding a `t`-class span. -/
def exSelDoc : Doc :=
  [.elem "body" [] [] [.elem "div" ["c"] [] [.elem "span" ["t"] [] [.text "v"]]]]

/-- A selector mapping whose `name` selector is syntactically invalid. -/
def badSelectors : List (String × String) := [("container", "div"), ("name", "!!")]

/-- A config carrying the invalid selector mapping. -/
def badConfig : ExtractionConfig := ⟨some badSelectors⟩

/-- A well-formed selector mapping. -/
def goodSelectors : List (String × String) := [("container", "div"), ("name", ".t")]

/-- A config carrying the well-formed selector mapping. -/
def goodConfig : ExtractionConfig := ⟨some goodSelectors⟩

/-- A record standing for previously accumulated data. -/
def prevRec : Record := [("text", .str "old")]

/-- A document whose generic extraction emits the trailing links record. -/
def cex8doc : Doc := [.elem "a" [] [("href", "/a")] [.text "hello"]]

/-- Three product candidates; the middle one is noise (no name, no
price), so the emitted `_product_index` values are 0 and 2. -/
def exProdDoc : Doc :=
  [.elem "div" ["item"] [] [.elem "h2" [] [] [.text "A"]],
   .elem "div" ["item"] [] [.text "noise"],
   .elem "div" ["product"] [] [.elem "span" ["price"] [] [.text "$3"]]]

/-! # Lemmas about dict insertion and record lookup -/

theorem dictInsert_ne_nil (r : Record) (k : String) (v : Value) : dictInsert r k v ≠ [] := by
  unfold dictInsert
  split
  · rename_i hany
    intro hm
    rw [List.map_eq_nil_iff] at hm
    subst hm
    simp at hany
  · simp

theorem mem_dictInsert {kv : String × Value} {r : Record} {k : String} {v : Value}
    (h : kv ∈ dictInsert r k v) : kv = (k, v) ∨ (kv ∈ r ∧ kv.1 ≠ k) := by
  unfold dictInsert at h
  split at h
  · rcases List.mem_map.mp h with ⟨p, hp, he⟩
    by_cases hk : p.1 = k
    · rw [if_pos hk] at he
      exact Or.inl he.symm
    · rw [if_neg hk] at he
      exact Or.inr ⟨he ▸ hp, he ▸ hk⟩
  · rename_i hany
    rcases List.mem_append.mp h with hl | hr
    · refine Or.inr ⟨hl, fun hk => hany ?_⟩
      exact List.any_eq_true.mpr ⟨kv, hl, by simp [hk]⟩
    · exact Or.inl (by simpa using hr)

theorem all_dictInsert {p : String × Value → Bool} {r : Record} {k : String} {v : Value}
    (hr : ∀ kv ∈ r, kv.1 ≠ k → p kv = true) (hk : p (k, v) = true) :
    (dictInsert r k v).all p = true := by
  rw [List.all_eq_true]
  intro kv hkv
  rcases mem_dictInsert hkv with he | ⟨hm, hne⟩
  · rw [he]; exact hk
  · exact hr kv hm hne

theorem all_insertIf {p : String × Value → Bool} {c : Bool} {r : Record} {k : String} {v : Value}
    (hr : r.all p = true) (hk : p (k, v) = true) : (insertIf c r k v).all p = true := by
  unfold insertIf
  split
  · exact all_dictInsert (fun kv hm _ => List.all_eq_true.mp hr kv hm) hk
  · exact hr

theorem recGet_append_ne {r : Record} {k k' : String} {v : Value} (h : k' ≠ k) :
    recGet k' (r ++ [(k, v)]) = recGet k' r := by
  induction r with
  | nil =>
      show (if k = k' then some v else recGet k' []) = none
      rw [if_neg (Ne.symm h)]
      rfl
  | cons p r ih =>
      obtain ⟨k2, v2⟩ := p
      show (if k2 = k' then some v2 else recGet k' (r ++ [(k, v)])) = _
      rw [ih]
      rfl

theorem recGet_map_update {r : Record} {k k' : String} {v : Value} (h : k' ≠ k) :
    recGet k' (r.map (fun p => if p.1 = k then (k, v) else p)) = recGet k' r := by
  induction r with
  | nil => rfl
  | cons p r ih =>
      obtain ⟨k2, v2⟩ := p
      by_cases h2 : k2 = k
      · subst h2
        simp only [List.map_cons, if_pos rfl]
        show (if k2 = k' then some v else _) = (if k2 = k' then some v2 else _)
        rw [if_neg (Ne.symm h), if_neg (Ne.symm h), ih]
      · simp only [List.map_cons, if_neg h2]
        show (if k2 = k' then some v2 else _) = (if k2 = k' then some v2 else _)
        split
        · rfl
        · exact ih

theorem recGet_dictInsert_ne {r : Record} {k k' : String} {v : Value} (h : k' ≠ k) :
    recGet k' (dictInsert r k v) = recGet k' r := by
  unfold dictInsert
  split
  · exact recGet_map_update h
  · exact recGet_append_ne h

theorem recGet_insertIf_ne {c : Bool} {r : Record} {k k' : String} {v : Value} (h : k' ≠ k) :
    recGet k' (insertIf c r k v) = recGet k' r := by
  unfold insertIf
  split
  · exact recGet_dictInsert_ne h
  · rfl

/-! # The claims -/

/-- C1: the page classifier is a pure function of document content that
evaluates its checks in the fixed priority order Table, Products, Cards,
List, Article, Generic and returns the label of the first check that
fires; in particular, every document containing a `<table>` with more
than 2 rows classifies as Table, whatever other signals are present. -/
theorem c1_classifier_priority_order :
    ∀ doc : Doc,
      detect_page_type doc = firstLabel classifierRules doc ∧
      ((∃ t ∈ tablesOf doc, 2 < (rowsOf t).length) → detect_page_type doc = "table") := by
  intro doc
  refine ⟨rfl, ?_⟩
  rintro ⟨t, ht, hr⟩
  have hchk : table_check doc = true :=
    List.any_eq_true.mpr ⟨t, ht, by simpa using hr⟩
  simp [detect_page_type, hchk]

/-- C2: classification returns Products exactly when no table check fired,
the lower-cased page text contains an ecommerce indicator, AND more than 3
elements carry a product/item class; with only one of the two ecommerce
conditions it is never Products. -/
theorem c2_ecommerce_requires_both :
    ∀ doc : Doc,
      detect_page_type doc = "ecommerce" ↔
        table_check doc = false ∧ ecomm_text_check doc = true ∧ ecomm_struct_check doc = true := by
  intro doc
  unfold detect_page_type
  split_ifs with h1 h2 h3 h4 h5 <;> simp_all [Bool.and_eq_true]

/-- C4 fails on the code: this document's only outer list has 2 direct
`<li>` children (its nested sublist has 4), yet the classifier returns
`"list"`, because the check counts all `<li>` descendants. -/
theorem c4_counterexample :
    detect_page_type cex4doc = "list" ∧ specDirectListCheck cex4doc = false := by
  constructor
  · decide
  · decide

/-- C4 amended: the List check fires exactly when no earlier check fired
and some `<ul>`/`<ol>` has more than 5 `<li>` DESCENDANTS — `<li>`
elements of nested sublists do count toward the outer list's threshold. -/
theorem c4_list_check_counts_descendants :
    ∀ doc : Doc,
      detect_page_type doc = "list" ↔
        table_check doc = false ∧ (ecomm_text_check doc && ecomm_struct_check doc) = false ∧
        cards_check doc = false ∧ (∃ l ∈ listsOf doc, 5 < (liDescendants l).length) := by
  intro doc
  unfold detect_page_type
  split_ifs with h1 h2 h3 h4 h5 <;>
    simp_all [list_check, List.any_eq_true]

/-- C5 fails on the code: a list with exactly 3 (hence "3 or fewer")
direct `<li>` children still produces 3 records — only lists with fewer
than 3 items are skipped. -/
theorem c5_counterexample :
    (scrape_lists cex5doc).length = 3 ∧ (directLi cex5ul).length = 3 := by
  constructor
  · rfl
  · rfl

/-- C5 amended: list extraction never emits a record for a list with
FEWER than 3 direct `<li>` children (a 3-item list is extracted), and
every emitted record comes from a direct `<li>` child of the list its
`_list_index` names — nested `<li>` are never counted for another list. -/
theorem c5_list_items_from_direct_children :
    ∀ (doc : Doc) (r : Record), r ∈ scrape_lists doc →
      ∃ i lst j item,
        (listsOf doc)[i]? = some lst ∧ 3 ≤ (directLi lst).length ∧
        (directLi lst)[j]? = some item ∧
        recGet "_list_index" r = some (.int i) ∧
        recGet "_item_index" r = some (.int j) ∧
        recGet "text" r = some (.str (getTextStrip item)) := by
  intro doc r hr
  rw [scrape_lists, List.mem_flatMap] at hr
  obtain ⟨⟨i, lst⟩, hmem, hr⟩ := hr
  rw [List.mem_enum_iff_getElem?] at hmem
  simp only [list_records] at hr
  split at hr
  · exact absurd hr (List.not_mem_nil r)
  · rename_i hlen
    rw [List.mem_map] at hr
    obtain ⟨⟨j, item⟩, hjmem, hrec⟩ := hr
    rw [List.mem_enum_iff_getElem?] at hjmem
    refine ⟨i, lst, j, item, hmem, by omega, hjmem, ?_, ?_, ?_⟩ <;>
      rw [← hrec, list_item_record, recGet_insertIf_ne (by decide)] <;> rfl

/-- A record of the 3-item list `cex5ul` realizes the amended C5. -/
theorem c5_witness :
    ∃ i lst j item,
      (listsOf cex5doc)[i]? = some lst ∧ 3 ≤ (directLi lst).length ∧
      (directLi lst)[j]? = some item ∧
      recGet "_list_index" w5rec = some (.int i) ∧
      recGet "_item_index" w5rec = some (.int j) ∧
      recGet "text" w5rec = some (.str (getTextStrip item)) :=
  c5_list_items_from_direct_children cex5doc w5rec (by decide)

/-- The selection fold keeps the set of the first pattern achieving the
maximal match count, and keeps the accumulator when nothing strictly
beats it. -/
theorem pickFold_spec (doc : Doc) :
    ∀ (ps : List String) (acc : List Node),
      (ps.foldl (pickStep doc) acc = acc ∧
        ∀ j, j < ps.length → (divClassAll doc (ps.getD j "")).length ≤ acc.length) ∨
      (∃ i, i < ps.length ∧
        ps.foldl (pickStep doc) acc = divClassAll doc (ps.getD i "") ∧
        acc.length < (divClassAll doc (ps.getD i "")).length ∧
        (∀ j, j < ps.length →
          (divClassAll doc (ps.getD j "")).length ≤ (divClassAll doc (ps.getD i "")).length) ∧
        (∀ j, j < i →
          (divClassAll doc (ps.getD j "")).length < (divClassAll doc (ps.getD i "")).length)) := by
  intro ps
  induction ps with
  | nil =>
      intro acc
      exact Or.inl ⟨rfl, fun j hj => absurd hj (by simp)⟩
  | cons w ps ih =>
      intro acc
      rw [List.foldl_cons]
      by_cases hw : acc.length < (divClassAll doc w).length
      · have hstep : pickStep doc acc w = divClassAll doc w := by
          unfold pickStep
          rw [if_pos hw]
        rw [hstep]
        rcases ih (divClassAll doc w) with ⟨heq, hle⟩ | ⟨i, hi, heq, hgt, hmax, hlt⟩
        · refine Or.inr ⟨0, by simp, by simpa using heq, by simpa using hw, ?_, ?_⟩
          · intro j hj
            match j with
            | 0 => simp
            | j + 1 =>
                rw [List.getD_cons_succ]
                exact hle j (by simpa using hj)
          · intro j hj
            omega
        · refine Or.inr ⟨i + 1, by simpa using hi, by simpa using heq, by
            rw [List.getD_cons_succ]; omega, ?_, ?_⟩
          · intro j hj
            match j with
            | 0 =>
                rw [List.getD_cons_zero, List.getD_cons_succ]
                omega
            | j + 1 =>
                rw [List.getD_cons_succ, List.getD_cons_succ]
                exact hmax j (by simpa using hj)
          · intro j hj
            match j with
            | 0 =>
                rw [List.getD_cons_zero, List.getD_cons_succ]
                omega
            | j + 1 =>
                rw [List.getD_cons_succ, List.getD_cons_succ]
                exact hlt j (by omega)
      · have hstep : pickStep doc acc w = acc := by
          unfold pickStep
          rw [if_neg hw]
        rw [hstep]
        rcases ih acc with ⟨heq, hle⟩ | ⟨i, hi, heq, hgt, hmax, hlt⟩
        · refine Or.inl ⟨heq, ?_⟩
          intro j hj
          match j with
          | 0 =>
              rw [List.getD_cons_zero]
              omega
          | j + 1 =>
              rw [List.getD_cons_succ]
              exact hle j (by simpa using hj)
        · refine Or.inr ⟨i + 1, by simpa using hi, by simpa using heq, by
            rw [List.getD_cons_succ]; omega, ?_, ?_⟩
          · intro j hj
            match j with
            | 0 =>
                rw [List.getD_cons_zero, List.getD_cons_succ]
                omega
            | j + 1 =>
                rw [List.getD_cons_succ, List.getD_cons_succ]
                exact hmax j (by simpa using hj)
          · intro j hj
            match j with
            | 0 =>
                rw [List.getD_cons_zero, List.getD_cons_succ]
                omega
            | j + 1 =>
                rw [List.getD_cons_succ, List.getD_cons_succ]
                exact hlt j (by omega)

/-- Every node the selection fold can return is a `<div>` (or came from
an all-`<div>` accumulator). -/
theorem pickFold_divs (doc : Doc) :
    ∀ (ps : List String) (acc : List Node), (∀ n ∈ acc, isTag "div" n = true) →
      ∀ n ∈ ps.foldl (pickStep doc) acc, isTag "div" n = true := by
  intro ps
  induction ps with
  | nil => intro acc h; exact h
  | cons w ps ih =>
      intro acc h
      rw [List.foldl_cons]
      apply ih
      intro n hn
      unfold pickStep at hn
      split at hn
      · rw [divClassAll, findAllP] at hn
        have hp := (List.mem_filter.mp hn).2
        exact ((Bool.and_eq_true _ _).mp hp).1
      · exact h n hn

/-- The product loop is enumerate-then-filter-then-map: records are
built for every candidate, and only then the noise ones are dropped. -/
theorem prodFold_filter_map :
    ∀ (l : List (Nat × Node)) (acc : List Record),
      l.foldl prodStep acc =
        acc ++ (l.filter (fun ip => keep_product (product_record ip.1 ip.2))).map
          (fun ip => product_record ip.1 ip.2) := by
  intro l
  induction l with
  | nil => intro acc; simp
  | cons ip l ih =>
      intro acc
      rw [List.foldl_cons]
      by_cases h : keep_product (product_record ip.1 ip.2) = true
      · have hstep : prodStep acc ip = acc ++ [product_record ip.1 ip.2] := by
          unfold prodStep
          rw [if_pos h]
        rw [hstep, ih, List.append_assoc]
        simp [List.filter_cons, h]
      · have hstep : prodStep acc ip = acc := by
          unfold prodStep
          rw [if_neg h]
        rw [hstep, ih]
        simp [List.filter_cons, h]

/-- Models `_product_index` in a product record is the enumeration index it was
built with — the later inserts never touch it. -/
theorem recGet_product_record (i : Nat) (p : Node) :
    recGet "_product_index" (product_record i p) = some (.int i) := by
  simp only [product_record]
  rw [recGet_insertIf_ne (by decide), recGet_insertIf_ne (by decide),
    recGet_insertIf_ne (by decide), recGet_insertIf_ne (by decide),
    recGet_insertIf_ne (by decide)]
  rfl

theorem prodIdx_product_record (i : Nat) (p : Node) :
    prodIdx (product_record i p) = i := by
  unfold prodIdx
  rw [recGet_product_record]

/-- C10: products extraction assigns `_product_index` as the candidate's
0-based position among ALL product/item-class elements, before noise
candidates are dropped; the emitted index sequence is therefore strictly
increasing, and (as on `exProdDoc`, where it is `[0, 2]`) need not be
consecutive. -/
theorem c10_product_index_before_noise_filter :
    (∀ doc : Doc,
      scrape_products doc =
        ((product_candidates doc).enum.filter
            (fun ip => keep_product (product_record ip.1 ip.2))).map
          (fun ip => product_record ip.1 ip.2) ∧
      (∀ i p, recGet "_product_index" (product_record i p) = some (.int i)) ∧
      ((scrape_products doc).map prodIdx).Pairwise (· < ·)) ∧
    (scrape_products exProdDoc).map prodIdx = [0, 2] := by
  refine ⟨?_, by decide⟩
  intro doc
  have heq : scrape_products doc =
      ((product_candidates doc).enum.filter
          (fun ip => keep_product (product_record ip.1 ip.2))).map
        (fun ip => product_record ip.1 ip.2) := by
    rw [scrape_products, prodFold_filter_map]
    rfl
  refine ⟨heq, fun i p => recGet_product_record i p, ?_⟩
  rw [heq, List.map_map]
  have hpt : ((product_candidates doc).enum.filter
        (fun ip => keep_product (product_record ip.1 ip.2))).map
      (prodIdx ∘ fun ip => product_record ip.1 ip.2) =
      ((product_candidates doc).enum.filter
        (fun ip => keep_product (product_record ip.1 ip.2))).map Prod.fst := by
    apply List.map_congr_left
    intro ip _
    exact prodIdx_product_record ip.1 ip.2
  rw [hpt]
  have hsub : List.Sublist
      (((product_candidates doc).enum.filter
        (fun ip => keep_product (product_record ip.1 ip.2))).map Prod.fst)
      ((product_candidates doc).enum.map Prod.fst) :=
    (List.filter_sublist _).map Prod.fst
  rw [List.enum, List.enumFrom_map_fst] at hsub
  exact (List.pairwise_lt_range' 0 (product_candidates doc).length).sublist hsub

theorem rowFold_all_str (hs : List String) :
    ∀ (l : List (Nat × Node)) (acc : Record), (∀ kv ∈ acc, kv.2.isStr = true) →
      ∀ kv ∈ l.foldl (rowFoldStep hs) acc, kv.2.isStr = true := by
  intro l
  induction l with
  | nil => intro acc h; exact h
  | cons ic l ih =>
      intro acc h
      rw [List.foldl_cons]
      apply ih
      intro kv hm
      unfold rowFoldStep at hm
      split at hm
      · rcases mem_dictInsert hm with he | ⟨hmm, _⟩
        · rw [he]
          rfl
        · exact h kv hmm
      · exact h kv hm

theorem row_record_all_ok (hs : List String) (ti : Nat) (row : Node) :
    ∀ r, row_record hs ti row = some r → r.all tableValOk = true := by
  intro r h
  simp only [row_record] at h
  split at h
  · exact absurd h (by simp)
  · split at h
    · exact absurd h (by simp)
    · obtain rfl : dictInsert _ "_table_index" (.int ti) = r := Option.some.inj h
      apply all_dictInsert
      · intro kv hm hne
        have hstr := rowFold_all_str hs (cellsOf row).enum [] (by simp) kv hm
        simp [tableValOk, hne, hstr]
      · simp [tableValOk, Value.isInt]

theorem scrape_tables_shape (doc : Doc) :
    (scrape_tables doc).all (fun r => r.all tableValOk) = true := by
  rw [List.all_eq_true]
  intro r hr
  rw [scrape_tables, List.mem_flatMap] at hr
  obtain ⟨it, _, hr⟩ := hr
  unfold table_records at hr
  split at hr
  · exact absurd hr (List.not_mem_nil r)
  · exact absurd hr (List.not_mem_nil r)
  · rcases List.mem_filterMap.mp hr with ⟨row, _, hrow⟩
    exact row_record_all_ok _ _ _ r hrow

theorem list_item_record_shape (li ii : Nat) (item : Node) :
    (list_item_record li ii item).all listValOk = true := by
  unfold list_item_record
  apply all_insertIf
  · simp [listValOk, Value.isStr, Value.isInt]
  · simp [listValOk, Value.isStr]

theorem scrape_lists_shape (doc : Doc) :
    (scrape_lists doc).all (fun r => r.all listValOk) = true := by
  rw [List.all_eq_true]
  intro r hr
  rw [scrape_lists, List.mem_flatMap] at hr
  obtain ⟨il, _, hr⟩ := hr
  simp only [list_records] at hr
  split at hr
  · exact absurd hr (List.not_mem_nil r)
  · rcases List.mem_map.mp hr with ⟨ji, _, hrec⟩
    rw [← hrec]
    exact list_item_record_shape il.1 ji.1 ji.2

theorem imageVal_shape (o : Option Node) :
    ((imageValOfFound o).isStr || (imageValOfFound o == Value.null)) = true := by
  unfold imageValOfFound valOfOpt
  split <;> rfl

theorem card_record_shape (ci : Nat) (card : Node) :
    (card_record ci card).all cardValOk = true := by
  unfold card_record
  apply all_insertIf
  · apply all_insertIf
    · apply all_insertIf
      · apply all_insertIf
        · apply all_insertIf
          · simp [cardValOk, Value.isInt]
          · simp [cardValOk, Value.isStr]
        · simp [cardValOk, Value.isStr]
      · simp [cardValOk, Value.isStr]
    · simpa [cardValOk] using imageVal_shape (eFindP card (isTag "img"))
  · simp [cardValOk, Value.isStr]

theorem scrape_cards_shape (doc : Doc) :
    (scrape_cards doc).all (fun r => r.all cardValOk) = true := by
  rw [List.all_eq_true]
  intro r hr
  rcases List.mem_map.mp hr with ⟨ic, _, hrec⟩
  rw [← hrec]
  exact card_record_shape ic.1 ic.2

theorem product_record_shape (pi : Nat) (p : Node) :
    (product_record pi p).all productValOk = true := by
  unfold product_record
  apply all_insertIf
  · apply all_insertIf
    · apply all_insertIf
      · apply all_insertIf
        · apply all_insertIf
          · simp [productValOk, Value.isInt]
          · simp [productValOk, Value.isStr]
        · simp [productValOk, Value.isStr]
      · simp [productValOk, Value.isStr]
    · simp [productValOk, Value.isStr]
  · simpa [productValOk] using imageVal_shape (eFindP p (isTag "img"))

theorem prodFold_shape :
    ∀ (l : List (Nat × Node)) (acc : List Record),
      acc.all (fun r => r.all productValOk) = true →
      (l.foldl prodStep acc).all (fun r => r.all productValOk) = true := by
  intro l
  induction l with
  | nil => intro acc h; exact h
  | cons ip l ih =>
      intro acc h
      rw [List.foldl_cons]
      apply ih
      unfold prodStep
      split
      · rw [List.all_append, h]
        simp [product_record_shape]
      · exact h

theorem scrape_products_shape (doc : Doc) :
    (scrape_products doc).all (fun r => r.all productValOk) = true :=
  prodFold_shape _ [] rfl

theorem scrape_article_shape (doc : Doc) (url : String) :
    (scrape_article doc url).all articleValOk = true := by
  unfold scrape_article
  apply all_dictInsert
  · intro kv hm _
    refine List.all_eq_true.mp ?_ kv hm
    apply all_insertIf
    · apply all_insertIf
      · apply all_insertIf
        · apply all_insertIf
          · apply all_insertIf
            · simp [articleValOk, Value.isStr]
            · simp [articleValOk, Value.isStr]
          · simp [articleValOk, Value.isStr]
        · simp [articleValOk, Value.isStr]
      · simp [articleValOk, Value.isStr]
    · simp [articleValOk, Value.isInt]
  · simp [articleValOk]

theorem heading_record_shape (tag : String) (cs laterSibs : List Node) :
    (heading_record tag cs laterSibs).all genericValOk = true := by
  unfold heading_record
  apply all_insertIf
  · simp [genericValOk, Value.isStr]
  · simp [genericValOk, Value.isStr]

mutual
theorem headingRecsL_shape :
    ∀ ns : List Node, (headingRecsL ns).all (fun r => r.all genericValOk) = true
  | [] => rfl
  | n :: rest => by
      rw [headingRecsL, List.all_append, headingRecsN_shape n rest, headingRecsL_shape rest]
      rfl

theorem headingRecsN_shape :
    ∀ (n : Node) (sibs : List Node), (headingRecsN n sibs).all (fun r => r.all genericValOk) = true
  | .text _, _ => rfl
  | .elem t c a cs, sibs => by
      rw [headingRecsN, List.all_append, headingRecsL_shape cs]
      split
      · simp [heading_record_shape]
      · rfl
end

theorem scrape_generic_shape (doc : Doc) :
    (scrape_generic doc).all (fun r => r.all genericValOk) = true := by
  unfold scrape_generic
  rw [List.all_append, headingRecsL_shape doc]
  split
  · rfl
  · simp [genericValOk, Value.isStr]

theorem selFieldStep_shape (c : Node) (it : Record) (fs : String × String)
    (h : it.all (fun kv => kv.2.isStr) = true) :
    ∀ it2, selFieldStep c it fs = .ok it2 → it2.all (fun kv => kv.2.isStr) = true := by
  intro it2 he
  unfold selFieldStep at he
  split at he
  · exact Except.ok.inj he ▸ h
  · split at he
    · refine Except.ok.inj he ▸ ?_
      apply all_insertIf h
      rfl
    · exact Except.noConfusion he

theorem selFields_shape (c : Node) :
    ∀ (sels : List (String × String)) (it : Record),
      it.all (fun kv => kv.2.isStr) = true →
      ∀ item, selFields c sels it = .ok item →
        item.all (fun kv => kv.2.isStr) = true := by
  intro sels
  induction sels with
  | nil =>
      intro it h item he
      exact Except.ok.inj he ▸ h
  | cons fs sels ih =>
      intro it h item he
      unfold selFields at he
      split at he
      · rename_i it2 hstep
        exact ih it2 (selFieldStep_shape c it fs h it2 hstep) item he
      · exact Except.noConfusion he

theorem selContainers_shape (sels : List (String × String)) :
    ∀ (cs : List Node) (acc : List Record),
      acc.all (fun r => r.all (fun kv => kv.2.isStr)) = true →
      ∀ data, selContainers sels cs acc = .ok data →
        data.all (fun r => r.all (fun kv => kv.2.isStr)) = true := by
  intro cs
  induction cs with
  | nil =>
      intro acc h data he
      exact Except.ok.inj he ▸ h
  | cons c cs ih =>
      intro acc h data he
      unfold selContainers at he
      split at he
      · rename_i acc2 hstep
        refine ih acc2 ?_ data he
        unfold selContainerStep at hstep
        split at hstep
        · rename_i item hitem
          refine Except.ok.inj hstep ▸ ?_
          split
          · exact h
          · rw [List.all_append, h]
            simp [selFields_shape c sels [] rfl item hitem]
        · exact Except.noConfusion hstep
      · exact Except.noConfusion he

/-- C8 fails on the code: the generic strategy's trailing links record
stores a LIST of url/text pairs under `links` — not a string and not a
synthetic integer index field. -/
theorem c8_counterexample :
    (scrape_generic cex8doc).all specRecordOk = false := by decide

/-- C8 amended: every record maps field names to strings EXCEPT that
synthetic index fields are integers, a table field name is a header text
(possibly empty), the cards/products `image` field may hold null, the
article record carries an integer `word_count` and a string-list
`images`, and the generic strategy's trailing record holds a list of
url/text pairs under `links`; the selector-driven extractor stores only
strings. -/
theorem c8_record_value_shapes :
    ∀ (doc : Doc) (url : String) (sels : List (String × String)) (data : List Record),
      (scrape_tables doc).all (fun r => r.all tableValOk) = true ∧
      (scrape_lists doc).all (fun r => r.all listValOk) = true ∧
      (scrape_cards doc).all (fun r => r.all cardValOk) = true ∧
      (scrape_products doc).all (fun r => r.all productValOk) = true ∧
      (scrape_article doc url).all articleValOk = true ∧
      (scrape_generic doc).all (fun r => r.all genericValOk) = true ∧
      (scrape_with_selectors doc sels = .ok data →
        data.all (fun r => r.all (fun kv => kv.2.isStr)) = true) := by
  intro doc url sels data
  refine ⟨scrape_tables_shape doc, scrape_lists_shape doc, scrape_cards_shape doc,
    scrape_products_shape doc, scrape_article_shape doc url, scrape_generic_shape doc, ?_⟩
  intro h
  unfold scrape_with_selectors at h
  split at h
  · exact selContainers_shape sels _ [] rfl data h
  · simp at h

/-- C9: cards extraction considers only `<div>` candidates; of the four
patterns card, tile, grid-item, box (in that order) it extracts the set
of the FIRST pattern achieving the maximal match count — a tie keeps the
earlier pattern, and sets are never merged. -/
theorem c9_cards_single_winning_pattern :
    ∀ doc : Doc,
      (∃ i, i < cardPatterns.length ∧ best_cards doc = cardSet doc i ∧
        (∀ j, j < cardPatterns.length → (cardSet doc j).length ≤ (cardSet doc i).length) ∧
        (∀ j, j < i → (cardSet doc j).length < (cardSet doc i).length)) ∧
      (∀ n ∈ best_cards doc, isTag "div" n = true) ∧
      scrape_cards doc = (best_cards doc).enum.map (fun ic => card_record ic.1 ic.2) := by
  intro doc
  refine ⟨?_, ?_, rfl⟩
  · rcases pickFold_spec doc cardPatterns [] with ⟨heq, hle⟩ | ⟨i, hi, heq, _, hmax, hlt⟩
    · have h0 : (cardSet doc 0).length = 0 := by
        have := hle 0 (by simp [cardPatterns])
        simpa [cardSet] using this
      refine ⟨0, by simp [cardPatterns], ?_, ?_, by omega⟩
      · rw [best_cards, heq]
        exact (List.length_eq_zero.mp h0).symm
      · intro j hj
        have := hle j hj
        rw [h0]
        simpa [cardSet] using this
    · exact ⟨i, hi, heq, hmax, hlt⟩
  · exact pickFold_divs doc cardPatterns [] (by simp)

theorem rowFold_const_of_nil_headers :
    ∀ (l : List (Nat × Node)) (acc : Record), l.foldl (rowFoldStep []) acc = acc := by
  intro l
  induction l with
  | nil => intro acc; rfl
  | cons ic l ih =>
      intro acc
      rw [List.foldl_cons]
      have hstep : rowFoldStep [] acc ic = acc := by
        unfold rowFoldStep
        rw [if_neg (by simp)]
      rw [hstep]
      exact ih acc

theorem rowFold_ne_nil_preserved (hs : List String) :
    ∀ (l : List (Nat × Node)) (acc : Record), acc ≠ [] → l.foldl (rowFoldStep hs) acc ≠ [] := by
  intro l
  induction l with
  | nil => intro acc h; exact h
  | cons ic l ih =>
      intro acc h
      rw [List.foldl_cons]
      apply ih
      unfold rowFoldStep
      split
      · exact dictInsert_ne_nil _ _ _
      · exact h

/-- A data row yields a record exactly when it has at least one cell and
the header list is non-empty — cell text emptiness is irrelevant. -/
theorem row_record_isSome (hs : List String) (ti : Nat) (row : Node) :
    (row_record hs ti row).isSome = (!(cellsOf row).isEmpty && !hs.isEmpty) := by
  simp only [row_record]
  cases hc : cellsOf row with
  | nil => simp
  | cons c cs =>
      rw [if_neg (by simp)]
      cases hh : hs with
      | nil =>
          rw [rowFold_const_of_nil_headers]
          simp
      | cons h0 hs' =>
          have hne : (c :: cs).enum.foldl (rowFoldStep (h0 :: hs')) ([] : Record) ≠ [] := by
            rw [List.enum_cons, List.foldl_cons]
            apply rowFold_ne_nil_preserved
            unfold rowFoldStep
            rw [if_pos (by simp)]
            exact dictInsert_ne_nil _ _ _
          rw [if_neg (by simpa [List.isEmpty_iff] using hne)]
          simp

/-- C3 fails on the code: `cex3table` has header `["Name"]` and a single
data row whose only cell is empty — zero rows with a non-empty cell —
yet one record is extracted, because an empty cell text still makes the
row dict non-empty. -/
theorem c3_counterexample :
    (scrape_tables cex3doc).length = 1 ∧ specTableRowCount cex3table = 0 := by
  constructor
  · decide
  · decide

/-- C3 amended: table extraction produces exactly as many records as
there are data rows owning at least one cell within the first N columns
(N the header length), whether or not the cell texts are empty; only
cell-less rows, or all rows when N = 0, are dropped. -/
theorem c3_table_record_count :
    ∀ (ti : Nat) (t : Node),
      (table_records ti t).length =
        match rowsOf t with
        | [] => 0
        | r0 :: rest =>
            rest.countP (fun row => !(cellsOf row).isEmpty && !(headersOf r0).isEmpty) := by
  intro ti t
  unfold table_records
  cases hr : rowsOf t with
  | nil => rfl
  | cons r0 rest =>
      cases rest with
      | nil => simp
      | cons r1 rest' =>
          rw [List.length_filterMap_eq_countP]
          exact List.countP_congr (fun row _ => by rw [row_record_isSome])

/-- C6: when the supplied config carries a field-to-selector mapping,
extraction is exactly the selector-driven extractor's result — the
classifier plays no part in the outcome. -/
theorem c6_config_overrides_classifier (doc : Doc) (url : String) (cfg : ExtractionConfig)
    (sels : List (String × String)) (h : cfg.selectors = some sels) :
    dispatch_extract doc url (some cfg) = scrape_with_selectors doc sels := by
  simp only [dispatch_extract, h]

/-- The selector-carrying `goodConfig` realizes C6 on `exSelDoc`. -/
theorem c6_witness :
    dispatch_extract exSelDoc "u" (some goodConfig) = scrape_with_selectors exSelDoc goodSelectors :=
  c6_config_overrides_classifier exSelDoc "u" goodConfig goodSelectors rfl

/-- C7 fails on the code: with the syntactically invalid selector `!!`,
the raised error is the selector engine's own syntax error carrying the
selector string (no `ConfigurationError` exists and no field name is
reported), and `scrape_url` swallows it, returning the empty accumulated
result. -/
theorem c7_counterexample :
    dispatch_extract exSelDoc "u" (some badConfig) = .error "!!" ∧
      scrape_url_core exSelDoc "u" (some badConfig) [] = [] :=
  ⟨rfl, rfl⟩

/-- C7 amended: a syntactically invalid selector makes extraction raise
the selector engine's syntax error (naming the selector, not the field);
`scrape_url`'s blanket handler swallows it and the call leaves the
accumulated data unchanged instead of failing fast. -/
theorem c7_selector_error_swallowed (doc : Doc) (url : String)
    (config : Option ExtractionConfig) (st : List Record) (e : String)
    (h : dispatch_extract doc url config = .error e) :
    scrape_url_core doc url config st = st ∧
      ∃ cfg sels, config = some cfg ∧ cfg.selectors = some sels ∧
        scrape_with_selectors doc sels = .error e := by
  refine ⟨?_, ?_⟩
  · unfold scrape_url_core
    rw [h]
  · match config with
    | none => exact absurd h (by simp [dispatch_extract])
    | some cfg =>
        match hc : cfg.selectors with
        | none =>
            simp only [dispatch_extract, hc] at h
            exact absurd h (by simp)
        | some sels =>
            refine ⟨cfg, sels, rfl, hc, ?_⟩
            simp only [dispatch_extract, hc] at h
            exact h

/-- The invalid `badConfig` realizes the amended C7 on `exSelDoc`, with
previously accumulated data preserved. -/
theorem c7_witness :
    scrape_url_core exSelDoc "u" (some badConfig) [prevRec] = [prevRec] ∧
      ∃ cfg sels, (some badConfig : Option ExtractionConfig) = some cfg ∧
        cfg.selectors = some sels ∧ scrape_with_selectors exSelDoc sels = .error "!!" :=
  c7_selector_error_swallowed exSelDoc "u" (some badConfig) [prevRec] "!!" rfl

end UniversalScrap
